import Mathlib

/-!
Shallow embedding of the elastic-debugger bridge-inspection engine, translated
from the Rust sources `bridgehub.rs`, `l1_asset_router.rs` and
`statetransition.rs`.  Addresses, 32-byte hashes and 256-bit words are
modelled as `Nat`; a fallible RPC call is an `Except Unit` value supplied by
an explicit chain-state oracle; a Rust panic (`unwrap` on an error, a failing
integer narrowing, an out-of-bounds index) is `none` in `Option`.
-/

/-! ## StateTransition (statetransition.rs) -/

/-- Oracle for the `IHyperchain` view functions: the success values the
transition contract returns (`?`-propagation of transport errors is not the
subject of any claim about this reader, so the oracle is total). -/
structure IHyperchain where
  getVerifier : Nat
  getAdmin : Nat
  getTotalBatchesCommitted : Nat
  getTotalBatchesVerified : Nat
  getTotalBatchesExecuted : Nat
  getSemverProtocolVersion : Nat × Nat × Nat
  getL2BootloaderBytecodeHash : Nat
  getL2DefaultAccountBytecodeHash : Nat
  getL2SystemContractsUpgradeTxHash : Nat
  getChainId : Nat
  getSettlementLayer : Nat
deriving DecidableEq

/-- The snapshot struct `StateTransition` of statetransition.rs. -/
structure StateTransition where
  verifier : Nat
  total_batches_executed : Nat
  total_batches_verified : Nat
  total_batches_committed : Nat
  bootloader_hash : Nat
  default_account_hash : Nat
  protocol_version : Nat × Nat × Nat
  system_upgrade_tx_hash : Nat
  admin : Nat
  chain_id : Nat
  settlement_layer : Nat
deriving DecidableEq

/-- `StateTransition::new` (statetransition.rs lines 94-138).  Note: the
source populates `total_batches_verified` and `total_batches_executed` from
`getTotalBatchesCommitted()` (lines 104 and 105 both call that getter). -/
def StateTransition.new (contract : IHyperchain) : StateTransition :=
  let verifier := contract.getVerifier
  let total_batches_committed := contract.getTotalBatchesCommitted
  let total_batches_verified := contract.getTotalBatchesCommitted
  let total_batches_executed := contract.getTotalBatchesCommitted
  let protocol_version := contract.getSemverProtocolVersion
  let admin := contract.getAdmin
  let bootloader_hash := contract.getL2BootloaderBytecodeHash
  let default_account_hash := contract.getL2DefaultAccountBytecodeHash
  let system_upgrade_tx_hash := contract.getL2SystemContractsUpgradeTxHash
  let chain_id := contract.getChainId
  let settlement_layer := contract.getSettlementLayer
  { verifier, total_batches_executed, total_batches_verified,
    total_batches_committed, bootloader_hash, default_account_hash,
    protocol_version, system_upgrade_tx_hash, admin, chain_id,
    settlement_layer }

/-! ## Bridgehub event scan (bridgehub.rs) -/

/-- Models the keccak-256 signature hash of
`NewChain(uint256,address,address)`.  Only its distinctness from other
signature hashes matters to the control flow, not its concrete value. -/
def NEWCHAIN_SIGNATURE_HASH : Nat := 61

/-- Models the keccak-256 signature hash of the `AssetRegistered` event. -/
def ASSETREGISTERED_SIGNATURE_HASH : Nat := 62

/-- An emitted log entry: emitting contract address, block number, topics. -/
structure Log where
  address : Nat
  blockNumber : Nat
  topics : List Nat
deriving DecidableEq

/-- Models `log.topic0()`: the first topic, if any. -/
def Log.topic0 (l : Log) : Option Nat := l.topics.head?

/-- Models ruint `U256::to::<u64>()`, which panics (here: `none`) when the
256-bit value does not fit in a `u64`. -/
def u256_to_u64 (v : Nat) : Option Nat :=
  if v < 2 ^ 64 then some v else none

/-- Models `provider.get_logs` for
`Filter::new().from_block(fromB).to_block(toB).address(a)` against a chain
whose full log history is `chain`. -/
def getLogs (chain : List Log) (a fromB toB : Nat) : List Log :=
  chain.filter fun l =>
    l.address == a && decide (fromB ≤ l.blockNumber) && decide (l.blockNumber ≤ toB)

/-- One iteration of the `for log in logs` body of
`detect_chains_with_newchain_event` (bridgehub.rs lines 144-157): classify
the log by its first topic; a NewChain log reads the second topic and inserts
it, cast to `u64`, into the known-chain set.  `none` models a panic (missing
second topic, or a chain id not fitting `u64`). -/
def processLog (known : List Nat) (l : Log) : Option (List Nat) :=
  match l.topic0 with
  | some t0 =>
    if t0 = NEWCHAIN_SIGNATURE_HASH then
      match l.topics.get? 1 with
      | some t1 =>
        match u256_to_u64 t1 with
        | some chain_id => some (known.insert chain_id)
        | none => none
      | none => none
    else if t0 = ASSETREGISTERED_SIGNATURE_HASH then
      some known
    else
      some known
  | none => some known

/-- The `for log in logs` loop over one window's logs. -/
def processLogs (known : List Nat) (logs : List Log) : Option (List Nat) :=
  logs.foldlM processLog known

/-- The fixed window size of the backward scan (bridgehub.rs line 136). -/
def WINDOW : Nat := 10000

/-- The `while current_block > 0` pagination loop of
`detect_chains_with_newchain_event` (bridgehub.rs lines 135-159):
`prev_limit = current_block.saturating_sub(10000)` (`Nat` subtraction is
saturating), one `get_logs` query over `[prev_limit + 1, current_block]`,
then the cursor moves to `prev_limit`. -/
def detectLoop (chain : List Log) (bridgehub : Nat) (current_block : Nat)
    (known_chains : List Nat) : Option (List Nat) :=
  if h : 0 < current_block then
    let prev_limit := current_block - WINDOW
    match processLogs known_chains
        (getLogs chain bridgehub (prev_limit + 1) current_block) with
    | some known => detectLoop chain bridgehub prev_limit known
    | none => none
  else
    some known_chains
termination_by current_block
decreasing_by exact Nat.sub_lt h (by decide)

/-- `Bridgehub::detect_chains_with_newchain_event` with the provider's
current block number (`head`) and the chain's log history made explicit. -/
def detect_chains_with_newchain_event (chain : List Log) (bridgehub : Nat)
    (head : Nat) : Option (List Nat) :=
  detectLoop chain bridgehub head []

/-- The sequence of `(from_block, to_block)` ranges that the pagination loop
of `detect_chains_with_newchain_event` queries, in query order. -/
def scanWindows (current_block : Nat) : List (Nat × Nat) :=
  if h : 0 < current_block then
    (current_block - WINDOW + 1, current_block) :: scanWindows (current_block - WINDOW)
  else
    []
termination_by current_block
decreasing_by exact Nat.sub_lt h (by decide)

/-- `SequencerType` of sequencer.rs, as consumed by `detect_chains`. -/
inductive SequencerType where
  | L1 : SequencerType
  | L2 : Nat → SequencerType
deriving DecidableEq

/-- `Bridgehub::detect_chains` (bridgehub.rs lines 111-125): on L1 run the
windowed NewChain scan; on L2 take the hyperchain-enumeration collaborator's
`(chain id, hyperchain address)` pairs, keep the chain ids and collect them
into a set (modelled as a deduplicated list). -/
def detect_chains (sequencer_type : SequencerType) (chain : List Log)
    (head : Nat) (bridgehub : Nat) (hyperchains : List (Nat × Nat)) :
    Option (List Nat) :=
  match sequencer_type with
  | .L1 => detect_chains_with_newchain_event chain bridgehub head
  | .L2 _ => some (hyperchains.map Prod.fst).dedup

/-! ## Bridgehub chain details (bridgehub.rs, get_chain_details) -/

/-- The zero address. -/
def ADDRESS_ZERO : Nat := 0

/-- `BridgehubChainDetails` of bridgehub.rs. -/
structure BridgehubChainDetails where
  stm_address : Nat
  st_address : Nat
  shared_bridge_address : Nat
  base_token_address : Nat
  validator_timelock_address : Nat
  stm_asset_id : Nat
deriving DecidableEq

/-- Oracle for the hub-side view calls issued by `get_chain_details`; each
call may fail (`Except.error ()` models a failing RPC call).
`validatorTimelock` is keyed by the state-transition-manager address the call
is issued against. -/
structure IBridgehub where
  stateTransitionManager : Nat → Except Unit Nat
  baseToken : Nat → Except Unit Nat
  getHyperchain : Nat → Except Unit Nat
  sharedBridge : Except Unit Nat
  stmAssetIdFromChainId : Nat → Except Unit Nat
  validatorTimelock : Nat → Except Unit Nat

/-- `Bridgehub::get_chain_details` (bridgehub.rs lines 178-228).  Every `?`
is written as an explicit match; the `baseToken` call alone replaces a
failure with the zero address (lines 194-198). -/
def get_chain_details (hub : IBridgehub) (chain_id : Nat) :
    Except Unit BridgehubChainDetails :=
  match hub.stateTransitionManager chain_id with
  | .error e => .error e
  | .ok stm_address =>
    let base_token_address :=
      match hub.baseToken chain_id with
      | .ok base_token => base_token
      | .error _ => ADDRESS_ZERO
    match hub.getHyperchain chain_id with
    | .error e => .error e
    | .ok st_address =>
      match hub.sharedBridge with
      | .error e => .error e
      | .ok shared_bridge_address =>
        match hub.validatorTimelock stm_address with
        | .error e => .error e
        | .ok validator_timelock_address =>
          match hub.stmAssetIdFromChainId chain_id with
          | .error e => .error e
          | .ok asset_id =>
            .ok { stm_address, st_address, shared_bridge_address,
                  base_token_address, validator_timelock_address,
                  stm_asset_id := asset_id }

/-! ## L1 asset router (l1_asset_router.rs) -/

/-- The reserved native-currency sentinel
`address!("0000000000000000000000000000000000000001")`. -/
def NATIVE_ETH_ADDRESS : Nat := 1

/-- `NativeTokenVaultAsset` of l1_asset_router.rs. -/
structure NativeTokenVaultAsset where
  address : Nat
  token_name : String
deriving DecidableEq

/-- `AssetHandler` of l1_asset_router.rs: the closed classification of a
registered asset by its deployment tracker. -/
inductive AssetHandler where
  | Bridgehub : AssetHandler
  | NativeTokenVault : NativeTokenVaultAsset → AssetHandler
  | Other : Nat → AssetHandler
deriving DecidableEq

/-- `RegisteredAsset` of l1_asset_router.rs. -/
structure RegisteredAsset where
  asset_id : Nat
  handler : AssetHandler
deriving DecidableEq

/-- Oracle for the native-token-vault `tokenAddress` call and the ERC20
`name()` call (both `unwrap`ped in the source; claims about this code
concern the success path, so the oracle is total). -/
structure VaultOracle where
  tokenAddress : Nat → Nat
  name : Nat → String

/-- `RegisteredAsset::new` (l1_asset_router.rs lines 66-107).  The second
component of the result records the token addresses on which an ERC20
`name()` call was issued, in order — instrumentation for the
native-currency-shortcut property; the source issues exactly these calls. -/
def RegisteredAsset.new (vault : VaultOracle) (asset_id : Nat)
    (deployment_tracker : Nat) (native_token_vault : Nat) (bridgehub : Nat) :
    RegisteredAsset × List Nat :=
  if deployment_tracker = native_token_vault then
    let token_address := vault.tokenAddress asset_id
    if token_address = NATIVE_ETH_ADDRESS then
      ({ asset_id, handler := .NativeTokenVault ⟨token_address, "ETH"⟩ }, [])
    else
      ({ asset_id,
         handler := .NativeTokenVault
           ⟨token_address, vault.name token_address⟩ },
       [token_address])
  else if deployment_tracker = bridgehub then
    ({ asset_id, handler := .Bridgehub }, [])
  else
    ({ asset_id, handler := .Other deployment_tracker }, [])

/-- Lookup in an association list keyed by asset id (the model of the
`HashMap` of registered assets). -/
def lookupA (m : List (Nat × RegisteredAsset)) (k : Nat) :
    Option RegisteredAsset :=
  match m with
  | [] => none
  | p :: rest => if p.1 = k then some p.2 else lookupA rest k

/-- Keyed insertion: replace the entry with key `k` when present, otherwise
append.  This is the behaviour of `HashMap::from_iter`, where a later pair
with the same key overwrites the earlier one. -/
def insertA (m : List (Nat × RegisteredAsset)) (k : Nat)
    (v : RegisteredAsset) : List (Nat × RegisteredAsset) :=
  if (lookupA m k).isSome then
    m.map fun p => if p.1 = k then (k, v) else p
  else
    m ++ [(k, v)]

/-- `L1AssetRouter::new` (l1_asset_router.rs lines 152-189), with the decoded
`AssetHandlerRegisteredInitial` events supplied as `(asset id, deployment
tracker)` pairs in log order: classify each pair with `RegisteredAsset::new`
and collect into a map keyed by asset id (`HashMap::from_iter`, later pairs
overwriting earlier ones). -/
def L1AssetRouter.new (vault : VaultOracle) (native_token_vault : Nat)
    (bridgehub : Nat) (events : List (Nat × Nat)) :
    List (Nat × RegisteredAsset) :=
  events.foldl
    (fun m e =>
      insertA m e.1 (RegisteredAsset.new vault e.1 e.2 native_token_vault bridgehub).1)
    []

/-- The deployment tracker of the last event in `events` carrying asset id
`k`, if any — the pair whose classification wins in the result map. -/
def lastTracker (events : List (Nat × Nat)) (k : Nat) : Option Nat :=
  ((events.filter fun e => e.1 == k).getLast?).map Prod.snd

/-! ## Concrete chain states used by witnesses and counterexamples -/

/-- A transition contract reporting 5 committed, 3 verified, 1 executed. -/
def c1_hyperchain : IHyperchain :=
  { getVerifier := 100, getAdmin := 101, getTotalBatchesCommitted := 5,
    getTotalBatchesVerified := 3, getTotalBatchesExecuted := 1,
    getSemverProtocolVersion := (0, 26, 0),
    getL2BootloaderBytecodeHash := 200,
    getL2DefaultAccountBytecodeHash := 201,
    getL2SystemContractsUpgradeTxHash := 0, getChainId := 270,
    getSettlementLayer := 102 }

/-- A hub whose `baseToken` call fails and whose other calls succeed. -/
def c4_hub : IBridgehub :=
  { stateTransitionManager := fun _ => .ok 11, baseToken := fun _ => .error (),
    getHyperchain := fun _ => .ok 12, sharedBridge := .ok 13,
    stmAssetIdFromChainId := fun _ => .ok 14,
    validatorTimelock := fun _ => .ok 15 }

/-- A hub with all calls succeeding. -/
def c9_hub : IBridgehub :=
  { stateTransitionManager := fun _ => .ok 21, baseToken := fun _ => .ok 22,
    getHyperchain := fun _ => .ok 23, sharedBridge := .ok 24,
    stmAssetIdFromChainId := fun _ => .ok 25,
    validatorTimelock := fun _ => .ok 26 }

/-- A vault oracle resolving every asset id to the native sentinel. -/
def c7_vault : VaultOracle :=
  { tokenAddress := fun _ => NATIVE_ETH_ADDRESS, name := fun _ => "TOK" }

/-- A vault oracle resolving every asset id to token address 2. -/
def c6_vault : VaultOracle :=
  { tokenAddress := fun _ => 2, name := fun _ => "TOK" }

/-! ## C1 -/

/-- C1: claimed — `StateTransition::new` populates `batchesVerified` from
`getTotalBatchesVerified` and `batchesExecuted` from
`getTotalBatchesExecuted`.  The code instead populates both from
`getTotalBatchesCommitted` (statetransition.rs lines 104-105): on a contract
reporting committed = 5, verified = 3, executed = 1, the snapshot reads
(5, 5, 5). -/
theorem c1_batch_counters_code_divergence :
    (StateTransition.new c1_hyperchain).total_batches_committed = 5 ∧
    (StateTransition.new c1_hyperchain).total_batches_verified = 5 ∧
    (StateTransition.new c1_hyperchain).total_batches_executed = 5 ∧
    c1_hyperchain.getTotalBatchesVerified = 3 ∧
    c1_hyperchain.getTotalBatchesExecuted = 1 ∧
    (StateTransition.new c1_hyperchain).total_batches_verified ≠
      c1_hyperchain.getTotalBatchesVerified ∧
    (StateTransition.new c1_hyperchain).total_batches_executed ≠
      c1_hyperchain.getTotalBatchesExecuted := by
  refine ⟨rfl, rfl, rfl, rfl, rfl, by decide, by decide⟩

/-! ## C4 -/

/-- C4: a `baseToken` failure is replaced by the zero address and resolution
succeeds, while a failure of any of the five other queries
(`stateTransitionManager`, `getHyperchain`, `sharedBridge`,
`validatorTimelock`, `stmAssetIdFromChainId`) makes `get_chain_details`
return an error. -/
theorem c4_base_token_fallback (hub : IBridgehub) (chain_id : Nat) :
    (∀ stm st sb vt aid,
      hub.stateTransitionManager chain_id = .ok stm →
      hub.getHyperchain chain_id = .ok st →
      hub.sharedBridge = .ok sb →
      hub.validatorTimelock stm = .ok vt →
      hub.stmAssetIdFromChainId chain_id = .ok aid →
      hub.baseToken chain_id = .error () →
      get_chain_details hub chain_id =
        .ok { stm_address := stm, st_address := st,
              shared_bridge_address := sb,
              base_token_address := ADDRESS_ZERO,
              validator_timelock_address := vt, stm_asset_id := aid }) ∧
    (hub.stateTransitionManager chain_id = .error () →
      get_chain_details hub chain_id = .error ()) ∧
    (hub.getHyperchain chain_id = .error () →
      get_chain_details hub chain_id = .error ()) ∧
    (hub.sharedBridge = .error () →
      get_chain_details hub chain_id = .error ()) ∧
    (∀ stm, hub.stateTransitionManager chain_id = .ok stm →
      hub.validatorTimelock stm = .error () →
      get_chain_details hub chain_id = .error ()) ∧
    (hub.stmAssetIdFromChainId chain_id = .error () →
      get_chain_details hub chain_id = .error ()) := by
  refine ⟨?_, ?_, ?_, ?_, ?_, ?_⟩
  · intro stm st sb vt aid h1 h2 h3 h4 h5 h6
    simp [get_chain_details, h1, h2, h3, h4, h5, h6]
  · intro h
    simp [get_chain_details, h]
  · intro h
    cases h1 : hub.stateTransitionManager chain_id <;>
      simp [get_chain_details, h1, h]
  · intro h
    cases h1 : hub.stateTransitionManager chain_id <;>
      cases h2 : hub.getHyperchain chain_id <;>
        simp [get_chain_details, h1, h2, h]
  · intro stm h1 h
    cases h2 : hub.getHyperchain chain_id <;>
      cases h3 : hub.sharedBridge <;>
        simp [get_chain_details, h1, h2, h3, h]
  · intro h
    cases h1 : hub.stateTransitionManager chain_id <;>
      cases h2 : hub.getHyperchain chain_id <;>
        cases h3 : hub.sharedBridge <;> try simp [get_chain_details, h1, h2, h3, h]
    case ok.ok.ok stm st sb =>
      cases h4 : hub.validatorTimelock stm <;>
        simp [get_chain_details, h1, h2, h3, h4, h]

/-- C4 witness: on `c4_hub` (failing `baseToken`, all else succeeding) the
resolution succeeds with a zero base-token address. -/
theorem c4_base_token_fallback_witness :
    get_chain_details c4_hub 270 =
      .ok { stm_address := 11, st_address := 12, shared_bridge_address := 13,
            base_token_address := ADDRESS_ZERO,
            validator_timelock_address := 15, stm_asset_id := 14 } :=
  (c4_base_token_fallback c4_hub 270).1 11 12 13 15 14 rfl rfl rfl rfl rfl rfl

/-! ## C7 -/

/-- C7: for a vault-tracked asset, if the resolved token address is the
native sentinel the token name is "ETH" and no `name()` call is issued
(empty call trace); otherwise the name comes from a single `name()` call on
the resolved token address. -/
theorem c7_native_currency_shortcut (vault : VaultOracle)
    (asset_id ntv bh : Nat) :
    (vault.tokenAddress asset_id = NATIVE_ETH_ADDRESS →
      RegisteredAsset.new vault asset_id ntv ntv bh =
        ({ asset_id := asset_id,
           handler := .NativeTokenVault ⟨NATIVE_ETH_ADDRESS, "ETH"⟩ }, [])) ∧
    (vault.tokenAddress asset_id ≠ NATIVE_ETH_ADDRESS →
      RegisteredAsset.new vault asset_id ntv ntv bh =
        ({ asset_id := asset_id,
           handler := .NativeTokenVault
             ⟨vault.tokenAddress asset_id,
              vault.name (vault.tokenAddress asset_id)⟩ },
         [vault.tokenAddress asset_id])) := by
  constructor
  · intro h
    simp [RegisteredAsset.new, h]
  · intro h
    simp [RegisteredAsset.new, h]

/-- C7 witness: on `c7_vault` (every id resolves to the sentinel) the asset
is classified as vault-tracked ETH with an empty `name()` call trace. -/
theorem c7_native_currency_shortcut_witness :
    RegisteredAsset.new c7_vault 10 5 5 6 =
      ({ asset_id := 10,
         handler := .NativeTokenVault ⟨NATIVE_ETH_ADDRESS, "ETH"⟩ }, []) :=
  (c7_native_currency_shortcut c7_vault 10 5 6).1 rfl

/-! ## C8 -/

/-- C8: `detect_chains` dispatches solely on the sequencer type: on L1 it is
the windowed NewChain scan of the hub address; on L2 it is the
hyperchain-enumeration pairs with the address component discarded, collected
into a deduplicated set. -/
theorem c8_detect_chains_dispatch (chain : List Log) (head bridgehub : Nat)
    (hyperchains : List (Nat × Nat)) (l2_chain_id : Nat) :
    detect_chains .L1 chain head bridgehub hyperchains =
      detect_chains_with_newchain_event chain bridgehub head ∧
    detect_chains (.L2 l2_chain_id) chain head bridgehub hyperchains =
      some (hyperchains.map Prod.fst).dedup ∧
    (∀ c, c ∈ (hyperchains.map Prod.fst).dedup ↔ ∃ a, (c, a) ∈ hyperchains) ∧
    (hyperchains.map Prod.fst).dedup.Nodup := by
  refine ⟨rfl, rfl, ?_, List.nodup_dedup _⟩
  intro c
  rw [List.mem_dedup, List.mem_map]
  constructor
  · rintro ⟨p, hp, rfl⟩
    exact ⟨p.2, hp⟩
  · rintro ⟨a, ha⟩
    exact ⟨(c, a), ha, rfl⟩

/-! ## C9 -/

/-- C9: `get_chain_details` is a pure function of the values the six queries
return — two resolutions against oracles that answer identically yield
identical `BridgehubChainDetails`. -/
theorem c9_resolution_idempotent (hub1 hub2 : IBridgehub) (chain_id : Nat)
    (h1 : hub1.stateTransitionManager chain_id = hub2.stateTransitionManager chain_id)
    (h2 : hub1.baseToken chain_id = hub2.baseToken chain_id)
    (h3 : hub1.getHyperchain chain_id = hub2.getHyperchain chain_id)
    (h4 : hub1.sharedBridge = hub2.sharedBridge)
    (h5 : ∀ a, hub1.validatorTimelock a = hub2.validatorTimelock a)
    (h6 : hub1.stmAssetIdFromChainId chain_id = hub2.stmAssetIdFromChainId chain_id) :
    get_chain_details hub1 chain_id = get_chain_details hub2 chain_id := by
  simp only [get_chain_details, h1, h2, h3, h4, h5, h6]

/-- C9 witness: two identical all-succeeding oracles resolve identically. -/
theorem c9_resolution_idempotent_witness :
    get_chain_details c9_hub 270 = get_chain_details c9_hub 270 :=
  c9_resolution_idempotent c9_hub c9_hub 270 rfl rfl rfl rfl (fun _ => rfl) rfl

/-! ## Scan-loop structure lemmas -/

/-- Structural runner for the pagination loop: process the given windows in
order, threading the known-chain set and aborting on a panic. -/
def runWindows (chain : List Log) (bridgehub : Nat) :
    List (Nat × Nat) → List Nat → Option (List Nat)
  | [], known => some known
  | w :: ws, known =>
    match processLogs known (getLogs chain bridgehub w.1 w.2) with
    | some known2 => runWindows chain bridgehub ws known2
    | none => none

/-- Unfolding the pagination loop along its window trace: the loop issues
exactly one `get_logs` query per element of `scanWindows`, in order. -/
theorem detectLoop_eq_runWindows (chain : List Log) (bridgehub : Nat)
    (current_block : Nat) (known : List Nat) :
    detectLoop chain bridgehub current_block known =
      runWindows chain bridgehub (scanWindows current_block) known := by
  induction current_block, known using detectLoop.induct chain bridgehub with
  | case1 c known_chains h prev known2 hp ih =>
    rw [detectLoop.eq_def, scanWindows.eq_def, dif_pos h, dif_pos h, runWindows]
    dsimp only
    simp only [show prev = c - WINDOW from rfl] at hp ih
    rw [hp]
    exact ih
  | case2 c known_chains h prev hp =>
    rw [detectLoop.eq_def, scanWindows.eq_def, dif_pos h, dif_pos h, runWindows]
    dsimp only
    simp only [show prev = c - WINDOW from rfl] at hp
    rw [hp]
  | case3 c known_chains h =>
    rw [detectLoop.eq_def, scanWindows.eq_def, dif_neg h, dif_neg h, runWindows]

/-- The number of windows the loop queries is exactly `ceil(head / WINDOW)`. -/
theorem scanWindows_length (head : Nat) :
    (scanWindows head).length = (head + (WINDOW - 1)) / WINDOW := by
  induction head using Nat.strong_induction_on with
  | _ c ih =>
    rw [scanWindows.eq_def]
    by_cases h : 0 < c
    · rw [dif_pos h, List.length_cons, ih (c - WINDOW) (Nat.sub_lt h (by decide))]
      simp only [WINDOW]
      omega
    · rw [dif_neg h]
      simp only [WINDOW, List.length_nil]
      omega

/-- Every block in `[1, head]` lies in some queried window. -/
theorem scanWindows_cover (head : Nat) :
    ∀ b, 1 ≤ b → b ≤ head → ∃ w ∈ scanWindows head, w.1 ≤ b ∧ b ≤ w.2 := by
  induction head using Nat.strong_induction_on with
  | _ c ih =>
    intro b hb1 hb2
    have hc : 0 < c := lt_of_lt_of_le hb1 hb2
    rw [scanWindows.eq_def, dif_pos hc]
    by_cases hb : c - WINDOW + 1 ≤ b
    · exact ⟨(c - WINDOW + 1, c), List.mem_cons_self _ _, hb, hb2⟩
    · have hble : b ≤ c - WINDOW := by omega
      obtain ⟨w, hw, hww⟩ :=
        ih (c - WINDOW) (Nat.sub_lt hc (by decide)) b hb1 hble
      exact ⟨w, List.mem_cons_of_mem _ hw, hww⟩

/-- Every queried window is a non-empty range inside `[1, head]`; in
particular block 0 is never queried. -/
theorem scanWindows_bounds (head : Nat) :
    ∀ w ∈ scanWindows head, 1 ≤ w.1 ∧ w.1 ≤ w.2 ∧ w.2 ≤ head := by
  induction head using Nat.strong_induction_on with
  | _ c ih =>
    intro w hw
    rw [scanWindows.eq_def] at hw
    by_cases h : 0 < c
    · rw [dif_pos h] at hw
      rcases List.mem_cons.mp hw with rfl | hw2
      · refine ⟨Nat.le_add_left 1 _, by simp only [WINDOW]; omega, le_rfl⟩
      · obtain ⟨h1, h2, h3⟩ := ih (c - WINDOW) (Nat.sub_lt h (by decide)) w hw2
        exact ⟨h1, h2, le_trans h3 (Nat.sub_le c WINDOW)⟩
    · rw [dif_neg h] at hw
      simp at hw

/-- One unfolding step of the window trace at a positive cursor. -/
theorem scanWindows_step (c : Nat) (h : 0 < c) :
    scanWindows c = (c - WINDOW + 1, c) :: scanWindows (c - WINDOW) := by
  rw [scanWindows.eq_def, dif_pos h]

/-- At cursor 0 the loop does not run: no window is queried. -/
theorem scanWindows_zero : scanWindows 0 = [] := by
  rw [scanWindows.eq_def]; norm_num

/-- The concrete window trace at head 25000: three windows, none of which
contains block 0. -/
theorem scanWindows_at_25000 :
    scanWindows 25000 = [(15001, 25000), (5001, 15000), (1, 5000)] := by
  rw [scanWindows_step 25000 (by norm_num)]
  norm_num [WINDOW]
  rw [scanWindows_step 15000 (by norm_num)]
  norm_num [WINDOW]
  rw [scanWindows_step 5000 (by norm_num)]
  norm_num [WINDOW]
  exact scanWindows_zero

/-- The hub address used in the scan scenarios. -/
def HUB_ADDRESS : Nat := 77

/-- The C2 scenario log history: `NewChain(chainId = 270)` emitted by the hub
at block 12500 and `NewChain(chainId = 271)` at block 500 (third topic: the
indexed chain-governance address). -/
def c2_chain : List Log :=
  [{ address := HUB_ADDRESS, blockNumber := 12500,
     topics := [NEWCHAIN_SIGNATURE_HASH, 270, 900] },
   { address := HUB_ADDRESS, blockNumber := 500,
     topics := [NEWCHAIN_SIGNATURE_HASH, 271, 901] }]

/-! ## C2 -/

/-- C2 counterexample: at head 25000 the loop queries exactly the three
windows [15001, 25000], [5001, 15000], [1, 5000] — there is no final
[0, 0] window, so the scanned windows are not the claimed four and their
union does not cover block 0. -/
theorem c2_windows_counterexample :
    scanWindows 25000 = [(15001, 25000), (5001, 15000), (1, 5000)] ∧
    [((15001 : Nat), (25000 : Nat)), (5001, 15000), (1, 5000)] ≠
      [(15001, 25000), (5001, 15000), (1, 5000), (0, 0)] :=
  ⟨scanWindows_at_25000, by decide⟩

/-- C2 corrected: the queried windows are exactly the non-empty ranges whose
union is [1, head] — block 0 is never scanned and no [0, 0] window is
issued; at head = 25000 the windows are [15001, 25000], [5001, 15000],
[1, 5000], and the scenario events at blocks 12500 (chain 270) and 500
(chain 271) yield the discovered set {270, 271}. -/
theorem c2_windowed_scan :
    (∀ head b, 1 ≤ b → b ≤ head →
      ∃ w ∈ scanWindows head, w.1 ≤ b ∧ b ≤ w.2) ∧
    (∀ head, ∀ w ∈ scanWindows head, 1 ≤ w.1 ∧ w.1 ≤ w.2 ∧ w.2 ≤ head) ∧
    scanWindows 25000 = [(15001, 25000), (5001, 15000), (1, 5000)] ∧
    detect_chains_with_newchain_event c2_chain HUB_ADDRESS 25000 =
      some [271, 270] ∧
    (∀ c, c ∈ [(271 : Nat), 270] ↔ c = 270 ∨ c = 271) := by
  refine ⟨scanWindows_cover, scanWindows_bounds, scanWindows_at_25000, ?_,
    fun c => by simp [List.mem_cons, or_comm]⟩
  rw [detect_chains_with_newchain_event, detectLoop_eq_runWindows,
    scanWindows_at_25000]
  rfl

/-- C2 witness: block 12500 lies in a queried window, and the scenario scan
produces exactly the chain ids 270 and 271. -/
theorem c2_windowed_scan_witness :
    (∃ w ∈ scanWindows 25000, w.1 ≤ 12500 ∧ 12500 ≤ w.2) ∧
    detect_chains_with_newchain_event c2_chain HUB_ADDRESS 25000 =
      some [271, 270] :=
  ⟨c2_windowed_scan.1 25000 12500 (by norm_num) (by norm_num),
   c2_windowed_scan.2.2.2.1⟩

/-! ## C3 -/

/-- C3 counterexample: at head 0 the `while current_block > 0` loop body
never runs, so zero window queries are issued, not the claimed one. -/
theorem c3_head_zero_counterexample :
    scanWindows 0 = [] ∧ (scanWindows 0).length ≠ 1 :=
  ⟨scanWindows_zero, by rw [scanWindows_zero]; decide⟩

/-- C3 corrected: if the head block number is 0 the loop issues no window
query at all and terminates immediately, returning the empty set. -/
theorem c3_head_zero (chain : List Log) (bridgehub : Nat) :
    scanWindows 0 = [] ∧ (scanWindows 0).length = 0 ∧
    detect_chains_with_newchain_event chain bridgehub 0 = some [] := by
  refine ⟨scanWindows_zero, by rw [scanWindows_zero]; rfl, ?_⟩
  rw [detect_chains_with_newchain_event, detectLoop_eq_runWindows,
    scanWindows_zero]
  rfl

/-! ## C5 -/

/-- A NewChain log whose second topic is 2^64. -/
def c5_log : Log :=
  { address := HUB_ADDRESS, blockNumber := 100,
    topics := [NEWCHAIN_SIGNATURE_HASH, 2 ^ 64, 900] }

/-- C5 counterexample: truncation modulo 2^64 is claimed for all 256-bit
topic values, but `U256::to::<u64>()` panics at 2^64: processing the log
aborts and nothing (in particular not 2^64 mod 2^64 = 0) is inserted. -/
theorem c5_truncation_counterexample :
    processLog [] c5_log = none ∧
    processLog [] c5_log ≠ some (List.insert ((2 ^ 64) % 2 ^ 64) []) := by
  have h : processLog [] c5_log = none := by
    simp [processLog, c5_log, Log.topic0, u256_to_u64]
  exact ⟨h, by rw [h]; simp⟩

/-- C5 corrected: for second-topic values below 2^64 the inserted chain id
is the topic value itself (equal to its value mod 2^64); for values of 2^64
and above the `u64` cast panics and the scan aborts instead of truncating. -/
theorem c5_chain_id_cast (known : List Nat) (a blk t gov : Nat) :
    (t < 2 ^ 64 →
      processLog known
          { address := a, blockNumber := blk,
            topics := [NEWCHAIN_SIGNATURE_HASH, t, gov] } =
        some (known.insert (t % 2 ^ 64))) ∧
    (2 ^ 64 ≤ t →
      processLog known
          { address := a, blockNumber := blk,
            topics := [NEWCHAIN_SIGNATURE_HASH, t, gov] } = none) := by
  constructor
  · intro h
    have hu : u256_to_u64 t = some t := by
      unfold u256_to_u64
      rw [if_pos h]
    simp [processLog, Log.topic0, hu]
    rw [Nat.mod_eq_of_lt (show t < 18446744073709551616 from h)]
  · intro h
    have hu : u256_to_u64 t = none := by
      unfold u256_to_u64
      rw [if_neg (Nat.not_lt.mpr h)]
    simp [processLog, Log.topic0, hu]

/-- C5 witness: a NewChain log with second topic 270 inserts chain id
270 = 270 mod 2^64. -/
theorem c5_chain_id_cast_witness :
    processLog []
        { address := 77, blockNumber := 100,
          topics := [NEWCHAIN_SIGNATURE_HASH, 270, 900] } =
      some (List.insert (270 % 2 ^ 64) []) :=
  (c5_chain_id_cast [] 77 100 270 900).1 (by norm_num)

/-! ## C10 -/

/-- C10: the pagination loop terminates — the cursor strictly decreases via
saturating subtraction of the window size while positive — and the loop
issues exactly one log query per window of `scanWindows`, that is
`ceil(head / 10000)` queries in total. -/
theorem c10_scan_termination (head : Nat) :
    (∀ c, 0 < c → c - WINDOW < c) ∧
    (scanWindows head).length = (head + (WINDOW - 1)) / WINDOW ∧
    (∀ chain bridgehub known,
      detectLoop chain bridgehub head known =
        runWindows chain bridgehub (scanWindows head) known) :=
  ⟨fun _ hc => Nat.sub_lt hc (by decide), scanWindows_length head,
   fun chain bridgehub known => detectLoop_eq_runWindows chain bridgehub head known⟩

/-- C10 witness: at head 25000 the cursor decreases and exactly
ceil(25000 / 10000) = 3 queries are issued. -/
theorem c10_scan_termination_witness :
    (25000 - WINDOW < 25000) ∧
    (scanWindows 25000).length = (25000 + (WINDOW - 1)) / WINDOW :=
  ⟨(c10_scan_termination 25000).1 25000 (by decide),
   (c10_scan_termination 25000).2.1⟩

/-! ## Association-map lemmas for the registered-asset map -/

/-- Replacing the entry at `k` makes `k` look up the new value, provided `k`
was present. -/
theorem lookupA_map_set_self (m : List (Nat × RegisteredAsset)) (k : Nat)
    (v : RegisteredAsset) (h : (lookupA m k).isSome) :
    lookupA (m.map fun p => if p.1 = k then (k, v) else p) k = some v := by
  induction m with
  | nil => simp [lookupA] at h
  | cons p rest ih =>
    by_cases hp : p.1 = k
    · simp [lookupA, hp]
    · simp [lookupA, hp] at h ⊢
      exact ih h

/-- Replacing the entry at `k` leaves other keys' lookups unchanged. -/
theorem lookupA_map_set_ne (m : List (Nat × RegisteredAsset)) (k : Nat)
    (v : RegisteredAsset) (k2 : Nat) (h : k2 ≠ k) :
    lookupA (m.map fun p => if p.1 = k then (k, v) else p) k2 = lookupA m k2 := by
  induction m with
  | nil => rfl
  | cons p rest ih =>
    obtain ⟨p1, p2⟩ := p
    by_cases hp : p1 = k
    · subst hp
      simp [lookupA, Ne.symm h, ih]
    · simp [lookupA, hp, ih]

/-- Appending a fresh entry at `k` makes `k` look it up, provided `k` was
absent. -/
theorem lookupA_append_self (m : List (Nat × RegisteredAsset)) (k : Nat)
    (v : RegisteredAsset) (h : lookupA m k = none) :
    lookupA (m ++ [(k, v)]) k = some v := by
  induction m with
  | nil => simp [lookupA]
  | cons p rest ih =>
    by_cases hp : p.1 = k
    · simp [lookupA, hp] at h
    · simp [lookupA, hp] at h ⊢
      exact ih h

/-- Appending an entry at `k` leaves other keys' lookups unchanged. -/
theorem lookupA_append_ne (m : List (Nat × RegisteredAsset)) (k : Nat)
    (v : RegisteredAsset) (k2 : Nat) (h : k2 ≠ k) :
    lookupA (m ++ [(k, v)]) k2 = lookupA m k2 := by
  induction m with
  | nil => simp [lookupA, Ne.symm h]
  | cons p rest ih => simp [lookupA, ih]

/-- Keyed insertion stores the value at its key. -/
theorem lookupA_insertA_self (m : List (Nat × RegisteredAsset)) (k : Nat)
    (v : RegisteredAsset) : lookupA (insertA m k v) k = some v := by
  cases hl : lookupA m k with
  | none =>
    have he : insertA m k v = m ++ [(k, v)] := by simp [insertA, hl]
    rw [he]
    exact lookupA_append_self m k v hl
  | some w =>
    have he : insertA m k v = m.map fun p => if p.1 = k then (k, v) else p := by
      simp [insertA, hl]
    rw [he]
    exact lookupA_map_set_self m k v (by rw [hl]; rfl)

/-- Keyed insertion leaves other keys' lookups unchanged. -/
theorem lookupA_insertA_ne (m : List (Nat × RegisteredAsset)) (k : Nat)
    (v : RegisteredAsset) (k2 : Nat) (h : k2 ≠ k) :
    lookupA (insertA m k v) k2 = lookupA m k2 := by
  cases hl : lookupA m k with
  | none =>
    have he : insertA m k v = m ++ [(k, v)] := by simp [insertA, hl]
    rw [he]
    exact lookupA_append_ne m k v k2 h
  | some w =>
    have he : insertA m k v = m.map fun p => if p.1 = k then (k, v) else p := by
      simp [insertA, hl]
    rw [he]
    exact lookupA_map_set_ne m k v k2 h

/-- Replacing an entry does not change the key list. -/
theorem map_fst_set (m : List (Nat × RegisteredAsset)) (k : Nat)
    (v : RegisteredAsset) :
    ((m.map fun p => if p.1 = k then (k, v) else p).map Prod.fst) =
      m.map Prod.fst := by
  induction m with
  | nil => rfl
  | cons p rest ih => by_cases hp : p.1 = k <;> simp [hp, ih]

/-- A key looks up `none` exactly when it is not among the stored keys. -/
theorem lookupA_eq_none (m : List (Nat × RegisteredAsset)) (k : Nat) :
    lookupA m k = none ↔ k ∉ m.map Prod.fst := by
  induction m with
  | nil => simp [lookupA]
  | cons p rest ih =>
    by_cases hp : p.1 = k
    · simp [lookupA, hp]
    · simp [lookupA, hp, ih, Ne.symm hp]

/-- Keyed insertion preserves distinctness of the stored keys. -/
theorem keys_nodup_insertA (m : List (Nat × RegisteredAsset)) (k : Nat)
    (v : RegisteredAsset) (h : (m.map Prod.fst).Nodup) :
    ((insertA m k v).map Prod.fst).Nodup := by
  cases hl : lookupA m k with
  | some w =>
    have he : insertA m k v = m.map fun p => if p.1 = k then (k, v) else p := by
      simp [insertA, hl]
    rw [he, map_fst_set]
    exact h
  | none =>
    have he : insertA m k v = m ++ [(k, v)] := by simp [insertA, hl]
    have hk : k ∉ m.map Prod.fst := (lookupA_eq_none m k).mp hl
    rw [he, List.map_append]
    simp [List.nodup_append, h, hk]

/-- Mapping over an optional value preserves whether it is present. -/
theorem isSome_map_opt {α β : Type} (o : Option α) (f : α → β) :
    (o.map f).isSome = o.isSome := by
  cases o <;> rfl

/-- One event appended to the history inserts its classification. -/
theorem router_new_concat (vault : VaultOracle) (ntv bh : Nat)
    (es : List (Nat × Nat)) (ek et : Nat) :
    L1AssetRouter.new vault ntv bh (es ++ [(ek, et)]) =
      insertA (L1AssetRouter.new vault ntv bh es) ek
        (RegisteredAsset.new vault ek et ntv bh).1 := by
  simp [L1AssetRouter.new, List.foldl_append]

/-- The result map of `L1AssetRouter.new` holds, at each asset id, the
classification of the id's last event (later duplicates overwrite earlier
ones). -/
theorem lookupA_router (vault : VaultOracle) (ntv bh : Nat)
    (events : List (Nat × Nat)) (k : Nat) :
    lookupA (L1AssetRouter.new vault ntv bh events) k =
      (lastTracker events k).map
        (fun t => (RegisteredAsset.new vault k t ntv bh).1) := by
  induction events using List.reverseRecOn with
  | nil => rfl
  | append_singleton es e ih =>
    obtain ⟨ek, et⟩ := e
    rw [router_new_concat]
    by_cases hk : k = ek
    · subst hk
      rw [lookupA_insertA_self]
      have hl : lastTracker (es ++ [(k, et)]) k = some et := by
        simp [lastTracker, List.filter_append, List.getLast?_concat]
      rw [hl]
      rfl
    · rw [lookupA_insertA_ne _ _ _ _ hk]
      have hl : lastTracker (es ++ [(ek, et)]) k = lastTracker es k := by
        simp [lastTracker, List.filter_append, Ne.symm hk]
      rw [hl, ih]

/-- A last tracker exists exactly when the asset id occurs in the events. -/
theorem lastTracker_isSome (events : List (Nat × Nat)) (k : Nat) :
    (lastTracker events k).isSome ↔ k ∈ events.map Prod.fst := by
  induction events using List.reverseRecOn with
  | nil => simp [lastTracker]
  | append_singleton es e ih =>
    obtain ⟨ek, et⟩ := e
    by_cases he : ek = k
    · subst he
      simp [lastTracker, List.filter_append, List.getLast?_concat]
    · have hl : lastTracker (es ++ [(ek, et)]) k = lastTracker es k := by
        simp [lastTracker, List.filter_append, he]
      rw [hl]
      simp [ih, Ne.symm he]

/-- The classification of a single event is always one of the three handler
variants, decided by its deployment tracker. -/
theorem registered_asset_handler (vault : VaultOracle) (k t ntv bh : Nat) :
    (t = ntv ∧ ∃ x,
      (RegisteredAsset.new vault k t ntv bh).1.handler =
        AssetHandler.NativeTokenVault x) ∨
    (t ≠ ntv ∧ t = bh ∧
      (RegisteredAsset.new vault k t ntv bh).1.handler =
        AssetHandler.Bridgehub) ∨
    (t ≠ ntv ∧ t ≠ bh ∧
      (RegisteredAsset.new vault k t ntv bh).1.handler =
        AssetHandler.Other t) := by
  by_cases h1 : t = ntv
  · left
    refine ⟨h1, ?_⟩
    by_cases h2 : vault.tokenAddress k = NATIVE_ETH_ADDRESS
    · exact ⟨⟨NATIVE_ETH_ADDRESS, "ETH"⟩, by simp [RegisteredAsset.new, h1, h2]⟩
    · exact ⟨⟨vault.tokenAddress k, vault.name (vault.tokenAddress k)⟩,
        by simp [RegisteredAsset.new, h1, h2]⟩
  · by_cases h2 : t = bh
    · refine Or.inr (Or.inl ⟨h1, h2, ?_⟩)
      simp only [RegisteredAsset.new]
      rw [if_neg h1, if_pos h2]
    · refine Or.inr (Or.inr ⟨h1, h2, ?_⟩)
      simp only [RegisteredAsset.new]
      rw [if_neg h1, if_neg h2]

/-! ## C6 -/

/-- C6: the registered-asset map has distinct keys; an asset id has an entry
exactly when some event carried it; the entry is the classification of the
id's last event (later duplicates overwrite earlier ones); and every entry's
handler is one of the three variants — vault-tracked when the tracker is the
native token vault, hub-tracked when it is the bridgehub (and not the
vault), and Other(tracker) otherwise — never unclassified. -/
theorem c6_classification_completeness (vault : VaultOracle) (ntv bh : Nat)
    (events : List (Nat × Nat)) :
    ((L1AssetRouter.new vault ntv bh events).map Prod.fst).Nodup ∧
    (∀ k, (lookupA (L1AssetRouter.new vault ntv bh events) k).isSome ↔
      k ∈ events.map Prod.fst) ∧
    (∀ k t, lastTracker events k = some t →
      lookupA (L1AssetRouter.new vault ntv bh events) k =
        some (RegisteredAsset.new vault k t ntv bh).1) ∧
    (∀ k v, lookupA (L1AssetRouter.new vault ntv bh events) k = some v →
      ∃ t, lastTracker events k = some t ∧
        ((t = ntv ∧ ∃ x, v.handler = AssetHandler.NativeTokenVault x) ∨
         (t ≠ ntv ∧ t = bh ∧ v.handler = AssetHandler.Bridgehub) ∨
         (t ≠ ntv ∧ t ≠ bh ∧ v.handler = AssetHandler.Other t))) := by
  refine ⟨?_, ?_, ?_, ?_⟩
  · induction events using List.reverseRecOn with
    | nil => simp [L1AssetRouter.new]
    | append_singleton es e ih =>
      obtain ⟨ek, et⟩ := e
      rw [router_new_concat]
      exact keys_nodup_insertA _ _ _ ih
  · intro k
    rw [lookupA_router, isSome_map_opt]
    exact lastTracker_isSome events k
  · intro k t hl
    rw [lookupA_router, hl]
    rfl
  · intro k v hv
    rw [lookupA_router] at hv
    obtain ⟨t, hlt, hft⟩ := Option.map_eq_some'.mp hv
    refine ⟨t, hlt, ?_⟩
    have := registered_asset_handler vault k t ntv bh
    rw [hft] at this
    exact this

/-- C6 witness: with vault address 5 and hub address 6, two events for asset
id 10 with trackers 5 then 7 leave one entry, classified from the last
tracker 7 (an `Other` handler). -/
theorem c6_classification_completeness_witness :
    lookupA (L1AssetRouter.new c6_vault 5 6 [(10, 5), (10, 7)]) 10 =
      some (RegisteredAsset.new c6_vault 10 7 5 6).1 :=
  (c6_classification_completeness c6_vault 5 6 [(10, 5), (10, 7)]).2.2.1 10 7
    (by decide)
